import Mathlib

/-!
# Verification of the AICheckout cart-extraction subsystem

Shallow embedding of the browser extension's cart-extraction core
(`BaseExtractor`, `ExtractorRegistry`, `GenericExtractor`, `ConfigExtractor`,
`SafewayExtractor`, `SephoraExtractor`, `BestBuyExtractor`, content-script
entry point) together with proofs of the specification's claims about it.

Modelling conventions:
* JavaScript strings are Lean `String`s; the JS string operations used by the
  source (`trim`, `toLowerCase`, `includes`, `parseInt`, the price regex,
  `split('\n')`, `replace(/[^0-9]/g,'')`) are modelled explicitly over
  `String.data` so that their behaviour is fully under our control.
* The DOM is external input: an `Element` carries its kind (input / select /
  other), its `value` attribute, its `textContent`, and a selector-indexed
  query function.  `querySelectorAll` may throw in JS (invalid selector,
  hostile host objects), so queries return `Except DomErr _`; `textContent`
  reads are total.  A document is just an `Element` used as query root.
* JS `Map` (used by the registry) is modelled as an insertion-ordered
  association list with ECMAScript `Map.set` semantics: setting an existing
  key replaces the value in place and keeps the key's position.
* Timing metadata (`performance.now()` durations) and `console` logging are
  observability only and are not modelled.
-/

namespace AICheckout

/-! ## JS string primitives -/

/-- Whitespace in the sense of JS `String.prototype.trim` (ASCII fragment). -/
def isJsWS (c : Char) : Bool :=
  c = ' ' || c = '\t' || c = '\n' || c = '\r'

/-- Trim both ends of a character list. -/
def trimL (cs : List Char) : List Char :=
  ((cs.dropWhile isJsWS).reverse.dropWhile isJsWS).reverse

/-- JS `s.trim()`. -/
def jsTrim (s : String) : String := ⟨trimL s.data⟩

/-- JS `s.toLowerCase()` (ASCII fragment, which is all the source compares). -/
def jsToLower (s : String) : String := ⟨s.data.map Char.toLower⟩

/-- Is `p` a prefix of `h` (list version of JS `startsWith`)? -/
def isPrefixL : List Char → List Char → Bool
  | [], _ => true
  | _ :: _, [] => false
  | p :: ps, h :: hs => p = h && isPrefixL ps hs

/-- Does `hay` contain `pat` as a contiguous substring? -/
def containsL (hay pat : List Char) : Bool :=
  isPrefixL pat hay ||
    match hay with
    | [] => false
    | _ :: hs => containsL hs pat

/-- JS `s.includes(pat)`. -/
def jsIncludes (s pat : String) : Bool := containsL s.data pat.data

/-- Digit characters accepted by JS `parseInt(_, 10)`. -/
def digitsVal (cs : List Char) : Nat :=
  cs.foldl (fun acc c => acc * 10 + (c.toNat - '0'.toNat)) 0

/-- JS `parseInt(s, 10)`: skip leading whitespace, optional sign, then the
longest digit prefix; `NaN` (here `none`) when no digit follows. -/
def jsParseInt (s : String) : Option Int :=
  let t := s.data.dropWhile isJsWS
  let (sign, rest) :=
    match t with
    | '-' :: r => ((-1 : Int), r)
    | '+' :: r => ((1 : Int), r)
    | r => ((1 : Int), r)
  let digits := rest.takeWhile Char.isDigit
  if digits.isEmpty then none
  else some (sign * (digitsVal digits : Int))

/-- JS `quantityText.replace(/[^0-9]/g, '')`: keep only digits. -/
def keepDigits (s : String) : String := ⟨s.data.filter Char.isDigit⟩

/-- Truthiness of a JS `string | null | undefined` value:
`null`/`undefined` and the empty string are falsy. -/
def truthyStr : Option String → Bool
  | none => false
  | some s => s ≠ ""

/-- JS `a || b` on `string | null` values. -/
def jsOrStr (a b : Option String) : Option String :=
  if truthyStr a then a else b

/-- Truthiness of a JS `number | null | undefined` value (`0` is falsy;
`NaN` never arises where this is used). -/
def truthyInt : Option Int → Bool
  | none => false
  | some n => n ≠ 0

/-- JS `x || undefined` on a `number | null` value. -/
def jsNumOrUndef (q : Option Int) : Option Int :=
  if truthyInt q then q else none

/-- One attempt of the regex `\$\d+(\.\d{2})?` anchored at the head of `cs`. -/
def matchPriceAt (cs : List Char) : Option (List Char) :=
  match cs with
  | '$' :: rest =>
    let digits := rest.takeWhile Char.isDigit
    if digits.isEmpty then none
    else
      match rest.drop digits.length with
      | '.' :: d1 :: d2 :: _ =>
        if d1.isDigit && d2.isDigit then
          some ('$' :: digits ++ ['.', d1, d2])
        else some ('$' :: digits)
      | _ => some ('$' :: digits)
  | _ => none

/-- First match of `\$\d+(\.\d{2})?` in a character list (JS
`text.match(pricePattern)?.[0]`). -/
def findPriceMatch : List Char → Option String
  | [] => none
  | c :: rest =>
    match matchPriceAt (c :: rest) with
    | some m => some ⟨m⟩
    | none => findPriceMatch rest

/-- JS `pricePattern.test(text)`. -/
def testPricePattern (s : String) : Bool := (findPriceMatch s.data).isSome

/-- JS `text.split('\n')`. -/
def splitLines (s : String) : List String := s.splitOn "\n"

/-! ## Data model: `CartItem` (the spec's ItemRecord) -/

/-- `CartItem` from `types/index.ts` (the `description` field is never set by
the extraction subsystem and is omitted). -/
structure CartItem where
  name : String
  price : Option String := none
  quantity : Option Int := none
  deriving Repr, DecidableEq

/-! ## DOM model -/

/-- Error raised by a DOM query or by arbitrary client code (a thrown JS
exception, carrying its message). -/
structure DomErr where
  message : String
  deriving Repr, DecidableEq

/-- The kind of a DOM element, as far as the source discriminates
(`instanceof HTMLInputElement` / `instanceof HTMLSelectElement`). -/
inductive ElemKind where
  | input
  | select
  | other
  deriving Repr, DecidableEq

/-- A DOM element: its kind, its `value` property (meaningful for inputs and
selects), its `textContent`, and its selector-indexed descendant query.
`querySelectorAll` may throw in JS, hence the `Except`. -/
inductive Element where
  | mk (kind : ElemKind) (value : String) (textContent : String)
      (queryAll : String → Except DomErr (List Element)) : Element

def Element.kind : Element → ElemKind
  | .mk k _ _ _ => k

def Element.value : Element → String
  | .mk _ v _ _ => v

def Element.textContent : Element → String
  | .mk _ _ t _ => t

def Element.queryAll : Element → String → Except DomErr (List Element)
  | .mk _ _ _ q => q

/-- `element.querySelector(sel)`: first match of `querySelectorAll` or null. -/
def Element.querySelector (el : Element) (sel : String) :
    Except DomErr (Option Element) :=
  match el.queryAll sel with
  | .error e => .error e
  | .ok els => .ok els.head?

/-! ## `BaseExtractor` shared helpers (part_005, `BaseExtractor` class) -/

/-- `BaseExtractor.canHandle` (default implementation): the lowercased
hostname contains some lowercased `urlPattern` as a substring. -/
def defaultCanHandle (urlPatterns : List String) (hostname : String) : Bool :=
  let lowerHostname := jsToLower hostname
  urlPatterns.any fun pattern => jsIncludes lowerHostname (jsToLower pattern)

/-- `BaseExtractor.extractText(element, selector?)`: trimmed text of the
element itself or of its first descendant matching `selector`; `none` when
the element/descendant is missing or its trimmed text is empty. -/
def extractText (element : Option Element) (selector : Option String) :
    Except DomErr (Option String) :=
  match element with
  | none => .ok none
  | some el =>
    match (match selector with
           | some sel => el.querySelector sel
           | none => .ok (some el) : Except DomErr (Option Element)) with
    | .error e => .error e
    | .ok none => .ok none
    | .ok (some t) =>
      let s := jsTrim t.textContent
      .ok (if s = "" then none else some s)

/-- `BaseExtractor.extractQuantityFromInput(element)`: `parseInt` of the
input/select `value`, else of the trimmed `textContent`; 1 when the element
is absent or the parse yields `NaN`. -/
def extractQuantityFromInput (element : Option Element) : Int :=
  match element with
  | none => 1
  | some el =>
    match el.kind with
    | .input | .select =>
      match jsParseInt el.value with
      | none => 1
      | some v => v
    | .other =>
      match jsParseInt (jsTrim el.textContent) with
      | none => 1
      | some v => v

/-- Deduplication key: `item.name.toLowerCase().trim()`. -/
def dedupKey (name : String) : String := jsTrim (jsToLower name)

/-- `BaseExtractor.deduplicateItems` inner loop: JS `Map` keyed by
`dedupKey`, set-if-absent, values read back in insertion order. -/
def dedupGo : List CartItem → List String → List CartItem
  | [], _ => []
  | item :: rest, seen =>
    let key := dedupKey item.name
    if key ∈ seen then dedupGo rest seen
    else item :: dedupGo rest (key :: seen)

/-- `BaseExtractor.deduplicateItems(items)`. -/
def deduplicateItems (items : List CartItem) : List CartItem :=
  dedupGo items []

/-- The word alternatives of the first noise regex
`/^(remove|delete|edit|save|quantity|qty|price|total|subtotal|checkout|continue)$/i`. -/
def noiseWords1 : List String :=
  ["remove", "delete", "edit", "save", "quantity", "qty", "price", "total",
   "subtotal", "checkout", "continue"]

/-- The word alternatives of the second noise regex
`/^(cart|basket|bag|items?|products?)$/i`. -/
def noiseWords2 : List String :=
  ["cart", "basket", "bag", "item", "items", "product", "products"]

/-- Does (already-trimmed) text match one of the four noise regexes?
The third is `/^\d+$/`, the fourth `/^[\W_]+$/` (JS word characters are
`[A-Za-z0-9_]`, so `[\W_]` is exactly the non-alphanumeric characters). -/
def noiseMatch (s : String) : Bool :=
  jsToLower s ∈ noiseWords1 ||
  jsToLower s ∈ noiseWords2 ||
  (s ≠ "" && s.data.all Char.isDigit) ||
  (s ≠ "" && s.data.all fun c => !c.isAlphanum)

/-- `BaseExtractor.isNoiseText(text)`: the regexes are tested against
`text.trim()`. -/
def isNoiseText (text : String) : Bool := noiseMatch (jsTrim text)

/-- `BaseExtractor.isValidItem(item)`: name truthy, length (of the name as
stored, not trimmed) in `[3, 500]`, and not noise. -/
def isValidItem (item : CartItem) : Bool :=
  item.name ≠ "" &&
  item.name.length ≥ 3 &&
  item.name.length ≤ 500 &&
  !isNoiseText item.name

/-! ## `GenericExtractor` (part_005, fallback strategy) -/

/-- The container selectors tried by `findItemsInCartContainers`. -/
def cartSelectors : List String :=
  ["[id*=\"cart\"]", "[class*=\"cart\"]", "[id*=\"basket\"]", "[class*=\"basket\"]",
   "[id*=\"checkout\"]", "[class*=\"checkout\"]", "[id*=\"bag\"]", "[class*=\"bag\"]",
   "[data-test*=\"cart\"]", "[data-testid*=\"cart\"]"]

/-- The descendant selector used inside each matched container. -/
def containerItemSelector : String :=
  "li, .cart-item, .product, .line-item, [class*=\"item\"], [class*=\"product\"]"

/-- The name selectors tried (in order) by `GenericExtractor.extractItemName`. -/
def nameSelectors : List String :=
  [".product-title", ".item-title", ".product-name", ".name", "[class*=\"title\"]",
   "[class*=\"name\"]", "[data-test*=\"name\"]", "[data-testid*=\"name\"]",
   "h2", "h3", "h4", "a"]

/-- The price selectors tried by `GenericExtractor.extractPrice`. -/
def priceSelectors : List String :=
  [".price", ".product-price", "[class*=\"price\"]", "[data-price]",
   "[data-test*=\"price\"]", "[data-testid*=\"price\"]"]

/-- The quantity selectors tried by `GenericExtractor.extractQuantity`. -/
def quantitySelectors : List String :=
  ["[class*=\"quantity\"]", "[class*=\"qty\"]", "input[type=\"number\"]",
   "[data-quantity]", "[data-test*=\"quantity\"]", "[data-testid*=\"quantity\"]"]

/-- The selector-loop of `GenericExtractor.extractItemName`: first selector
whose matched descendant has non-empty text whose trimmed form has length in
`(0, 200)` wins (an early `return` in the JS `for` loop). -/
def genNameLoop (element : Element) : List String → Except DomErr (Option String)
  | [] => .ok none
  | sel :: rest =>
    match element.querySelector sel with
    | .error e => .error e
    | .ok none => genNameLoop element rest
    | .ok (some nameElement) =>
      if nameElement.textContent ≠ "" then
        let name := jsTrim nameElement.textContent
        if name.length > 0 && name.length < 200 then .ok (some name)
        else genNameLoop element rest
      else genNameLoop element rest

/-- The first-non-blank-line fallback of `GenericExtractor.extractItemName`
on the element's own text (the code after the selector loop). -/
def genNameFallback (element : Element) : Option String :=
  if (jsTrim element.textContent).length > 3
      && (jsTrim element.textContent).length < 300 then
    match (splitLines (jsTrim element.textContent)).filter
        (fun line => jsTrim line ≠ "") with
    | [] => none
    | l :: _ =>
      if (jsTrim l).length > 3 && (jsTrim l).length < 200 then some (jsTrim l)
      else none
  else none

/-- `GenericExtractor.extractItemName(element)`: the selector loop, then the
first-non-blank-line fallback on the element's own text. -/
def genExtractItemName (element : Element) : Except DomErr (Option String) :=
  match genNameLoop element nameSelectors with
  | .error e => .error e
  | .ok (some name) => .ok (some name)
  | .ok none => .ok (genNameFallback element)

/-- The selector-loop of `GenericExtractor.extractPrice`: first selector whose
matched descendant has non-empty text whose trimmed form contains `$`. -/
def genPriceLoop (element : Element) : List String → Except DomErr (Option String)
  | [] => .ok none
  | sel :: rest =>
    match element.querySelector sel with
    | .error e => .error e
    | .ok none => genPriceLoop element rest
    | .ok (some priceElement) =>
      if priceElement.textContent ≠ "" then
        let price := jsTrim priceElement.textContent
        if jsIncludes price "$" then .ok (some price)
        else genPriceLoop element rest
      else genPriceLoop element rest

/-- `GenericExtractor.extractPrice(element)`: the selector loop, then the
price-regex fallback on the element's own text. -/
def genExtractPrice (element : Element) : Except DomErr (Option String) :=
  match genPriceLoop element priceSelectors with
  | .error e => .error e
  | .ok (some price) => .ok (some price)
  | .ok none => .ok (findPriceMatch element.textContent.data)

/-- The selector-loop of `GenericExtractor.extractQuantity` (returns the first
positive parsed quantity, else `undefined`). -/
def genQuantityLoop (element : Element) : List String → Except DomErr (Option Int)
  | [] => .ok none
  | sel :: rest =>
    match element.querySelector sel with
    | .error e => .error e
    | .ok none => genQuantityLoop element rest
    | .ok (some qtyElement) =>
      let qty := extractQuantityFromInput (some qtyElement)
      if qty > 0 then .ok (some qty)
      else genQuantityLoop element rest

/-- `GenericExtractor.extractQuantity(element)`. -/
def genExtractQuantity (element : Element) : Except DomErr (Option Int) :=
  genQuantityLoop element quantitySelectors

/-- The `itemElements.forEach` body of `findItemsInCartContainers`: build a
candidate from name/price/quantity and keep it when `isValidItem` accepts. -/
def genInnerLoop : List Element → Except DomErr (List CartItem)
  | [] => .ok []
  | item :: rest =>
    match genExtractItemName item with
    | .error e => .error e
    | .ok name? =>
      if truthyStr name? then
        match genExtractPrice item with
        | .error e => .error e
        | .ok price? =>
          match genExtractQuantity item with
          | .error e => .error e
          | .ok qty? =>
            let cartItem : CartItem :=
              { name := name?.getD "", price := jsOrStr price? none,
                quantity := jsNumOrUndef qty? }
            match genInnerLoop rest with
            | .error e => .error e
            | .ok tail =>
              .ok (if isValidItem cartItem then cartItem :: tail else tail)
      else
        genInnerLoop rest

/-- The `containers.forEach` loop of `findItemsInCartContainers`. -/
def genContainerLoop : List Element → Except DomErr (List CartItem)
  | [] => .ok []
  | container :: rest =>
    match container.queryAll containerItemSelector with
    | .error e => .error e
    | .ok itemElements =>
      match genInnerLoop itemElements with
      | .error e => .error e
      | .ok here =>
        match genContainerLoop rest with
        | .error e => .error e
        | .ok there => .ok (here ++ there)

/-- The `cartSelectors` loop of `findItemsInCartContainers`. -/
def genSelectorLoop (doc : Element) : List String → Except DomErr (List CartItem)
  | [] => .ok []
  | sel :: rest =>
    match doc.queryAll sel with
    | .error e => .error e
    | .ok containers =>
      match genContainerLoop containers with
      | .error e => .error e
      | .ok here =>
        match genSelectorLoop doc rest with
        | .error e => .error e
        | .ok there => .ok (here ++ there)

/-- `GenericExtractor.findItemsInCartContainers()`. -/
def genFindItemsInCartContainers (doc : Element) : Except DomErr (List CartItem) :=
  genSelectorLoop doc cartSelectors

/-- The candidate selector of `findItemsByPricePattern`. -/
def priceScanSelector : String :=
  "li, .product, .cart-item, .line-item, div[class*=\"item\"], div[class*=\"product\"]"

/-- The record built by `findItemsByPricePattern` for one candidate element
(`price` is the first regex match in the element text, kept when truthy). -/
def genPriceScanItem (element : Element) (name : String) : CartItem :=
  { name := name, price := jsOrStr (findPriceMatch element.textContent.data) none }

/-- The `candidates.forEach` loop of `findItemsByPricePattern`. -/
def genPriceScanLoop : List Element → Except DomErr (List CartItem)
  | [] => .ok []
  | element :: rest =>
    if testPricePattern element.textContent && element.textContent.length < 300 then
      match genExtractItemName element with
      | .error e => .error e
      | .ok (some name) =>
        if name.length > 3 && name.length < 200 then
          match genPriceScanLoop rest with
          | .error e => .error e
          | .ok tail =>
            .ok (if isValidItem (genPriceScanItem element name)
                 then genPriceScanItem element name :: tail else tail)
        else genPriceScanLoop rest
      | .ok none => genPriceScanLoop rest
    else genPriceScanLoop rest

/-- `GenericExtractor.findItemsByPricePattern()`. -/
def genFindItemsByPricePattern (doc : Element) : Except DomErr (List CartItem) :=
  match doc.queryAll priceScanSelector with
  | .error e => .error e
  | .ok candidates => genPriceScanLoop candidates

/-- `GenericExtractor.extract()`: container scan, price-pattern fallback when
it yields nothing, deduplicate, cap at 20. -/
def genericExtract (doc : Element) : Except DomErr (List CartItem) :=
  match genFindItemsInCartContainers doc with
  | .error e => .error e
  | .ok cartItems =>
    match (if cartItems.length > 0 then .ok cartItems
           else genFindItemsByPricePattern doc : Except DomErr (List CartItem)) with
    | .error e => .error e
    | .ok items => .ok ((deduplicateItems items).take 20)

/-! ## `ConfigExtractor` (cards.ts second half, declarative strategy)

The custom extractor hooks are arbitrary client functions and may throw,
hence their `Except` type. -/

/-- `ExtractorConfig` from `extractor.types.ts`. -/
structure ExtractorConfig where
  siteId : String
  urlPatterns : List String
  displayName : String
  itemSelector : String
  brandSelector : Option String := none
  nameSelector : String
  priceSelector : Option String := none
  quantitySelector : Option String := none
  combineBrandName : Option Bool := none
  customNameExtractor : Option (Element → Except DomErr (Option String)) := none
  customPriceExtractor : Option (Element → Except DomErr (Option String)) := none
  customQuantityExtractor : Option (Element → Except DomErr (Option Int)) := none

/-- The `brandText` computation of `ConfigExtractor.extractItem`. -/
def configBrandText (cfg : ExtractorConfig) (element : Element) :
    Except DomErr (Option String) :=
  match cfg.brandSelector with
  | some bs => extractText (some element) (some bs)
  | none => .ok none

/-- The `nameText` computation of `ConfigExtractor.extractItem`. -/
def configNameText (cfg : ExtractorConfig) (element : Element) :
    Except DomErr (Option String) :=
  extractText (some element) (some cfg.nameSelector)

/-- The name-resolution block of `ConfigExtractor.extractItem`. -/
def configResolveName (cfg : ExtractorConfig) (element : Element) :
    Except DomErr (Option String) :=
  match cfg.customNameExtractor with
  | some f => f element
  | none =>
    match configBrandText cfg element with
    | .error e => .error e
    | .ok brandText =>
      match configNameText cfg element with
      | .error e => .error e
      | .ok nameText =>
        if truthyStr brandText && truthyStr nameText
            && cfg.combineBrandName ≠ some false then
          .ok (some (jsTrim ((brandText.getD "") ++ " " ++ (nameText.getD ""))))
        else
          .ok (jsOrStr nameText brandText)

/-- The price-resolution block of `ConfigExtractor.extractItem`
(`price` ends up `undefined` unless truthy). -/
def configResolvePrice (cfg : ExtractorConfig) (element : Element) :
    Except DomErr (Option String) :=
  match cfg.customPriceExtractor with
  | some f =>
    match f element with
    | .error e => .error e
    | .ok priceValue => .ok (jsOrStr priceValue none)
  | none =>
    match cfg.priceSelector with
    | some ps =>
      match extractText (some element) (some ps) with
      | .error e => .error e
      | .ok v => .ok (jsOrStr v none)
    | none => .ok none

/-- The quantity-resolution block of `ConfigExtractor.extractItem`. -/
def configResolveQuantity (cfg : ExtractorConfig) (element : Element) :
    Except DomErr (Option Int) :=
  match cfg.customQuantityExtractor with
  | some f =>
    match f element with
    | .error e => .error e
    | .ok qtyValue => .ok (jsNumOrUndef qtyValue)
  | none =>
    match cfg.quantitySelector with
    | some qs =>
      match element.querySelector qs with
      | .error e => .error e
      | .ok (some qtyElement) => .ok (some (extractQuantityFromInput (some qtyElement)))
      | .ok none => .ok none
    | none => .ok none

/-- `ConfigExtractor.extractItem(element)`. -/
def configExtractItem (cfg : ExtractorConfig) (element : Element) :
    Except DomErr (Option CartItem) :=
  match configResolveName cfg element with
  | .error e => .error e
  | .ok name? =>
    if truthyStr name? then
      match configResolvePrice cfg element with
      | .error e => .error e
      | .ok price? =>
        match configResolveQuantity cfg element with
        | .error e => .error e
        | .ok qty? =>
          .ok (some { name := name?.getD "", price := jsOrStr price? none,
                      quantity := jsNumOrUndef qty? })
    else .ok none

/-- The `itemElements.forEach` loop of `ConfigExtractor.extract`: the
per-element `try`/`catch` swallows an element's error and moves on. -/
def configLoop (cfg : ExtractorConfig) : List Element → List CartItem
  | [] => []
  | element :: rest =>
    match configExtractItem cfg element with
    | .ok (some item) =>
      if isValidItem item then item :: configLoop cfg rest else configLoop cfg rest
    | .ok none => configLoop cfg rest
    | .error _ => configLoop cfg rest

/-- `ConfigExtractor.extract()`. -/
def configExtract (cfg : ExtractorConfig) (doc : Element) :
    Except DomErr (List CartItem) :=
  match doc.queryAll cfg.itemSelector with
  | .error e => .error e
  | .ok itemElements =>
    if itemElements.length = 0 then .ok []
    else .ok (deduplicateItems (configLoop cfg itemElements))

/-! ## `SafewayExtractor` (bespoke strategy) -/

/-- One stepper probe of `extractSafewayQuantity`: digits of the trimmed
stepper text, parsed; accepted when truthy and positive. -/
def safewayStepperQty (stepper : Element) : Option Int :=
  let quantityText := keepDigits (jsTrim stepper.textContent)
  let qty := if quantityText ≠ "" then jsParseInt quantityText else none
  match qty with
  | some v => if v ≠ 0 && v > 0 then some v else none
  | none => none

/-- `SafewayExtractor.extractSafewayQuantity(element)`: desktop stepper,
mobile stepper, then any `input[type="number"]`, defaulting to 1. -/
def safewayQuantity (element : Element) : Except DomErr Int :=
  match element.querySelector ".stepper-amount" with
  | .error e => .error e
  | .ok stepperAmount? =>
    match stepperAmount?.bind safewayStepperQty with
    | some v => .ok v
    | none =>
      match element.querySelector ".stepper-qty-round" with
      | .error e => .error e
      | .ok mobileQty? =>
        match mobileQty?.bind safewayStepperQty with
        | some v => .ok v
        | none =>
          match element.querySelector "input[type=\"number\"]" with
          | .error e => .error e
          | .ok quantityInput? =>
            match quantityInput? with
            | some quantityInput =>
              let qty := extractQuantityFromInput (some quantityInput)
              .ok (if qty > 0 then qty else 1)
            | none => .ok 1

/-- `SafewayExtractor.extractSafewayItem(element)`. -/
def safewayExtractItem (element : Element) : Except DomErr (Option CartItem) :=
  match extractText (some element) (some "a.product-name") with
  | .error e => .error e
  | .ok none => .ok none
  | .ok (some productName) =>
    match extractText (some element) (some "b.main-netAmount") with
    | .error e => .error e
    | .ok price? =>
      match safewayQuantity element with
      | .error e => .error e
      | .ok quantity =>
        .ok (some { name := productName, price := jsOrStr price? none,
                    quantity := jsNumOrUndef (some quantity) })

/-- The `cartItems.forEach` loop of `SafewayExtractor.extract` with its
per-item `try`/`catch`. -/
def safewayLoop : List Element → List CartItem
  | [] => []
  | element :: rest =>
    match safewayExtractItem element with
    | .ok (some item) =>
      if isValidItem item then item :: safewayLoop rest else safewayLoop rest
    | .ok none => safewayLoop rest
    | .error _ => safewayLoop rest

/-- `SafewayExtractor.extract()`. -/
def safewayExtract (doc : Element) : Except DomErr (List CartItem) :=
  match doc.queryAll "app-cart-item" with
  | .error e => .error e
  | .ok cartItems =>
    if cartItems.length = 0 then .ok []
    else .ok (deduplicateItems (safewayLoop cartItems))

/-! ## `SephoraExtractor` (bespoke strategy) -/

/-- `SephoraExtractor.buildFullName(brand, productName)`. -/
def sephoraBuildFullName (brand productName : Option String) : Option String :=
  if truthyStr brand && truthyStr productName then
    some (jsTrim ((brand.getD "") ++ " " ++ (productName.getD "")))
  else jsOrStr productName brand

/-- `SephoraExtractor.extractSephoraQuantity(element)`. -/
def sephoraQuantity (element : Element) : Except DomErr Int :=
  match element.querySelector "select[data-at=\"sku_qty\"]" with
  | .error e => .error e
  | .ok (some quantitySelect) => .ok (extractQuantityFromInput (some quantitySelect))
  | .ok none => .ok 1

/-- `SephoraExtractor.extractSephoraItem(element)`. -/
def sephoraExtractItem (element : Element) : Except DomErr (Option CartItem) :=
  match extractText (some element) (some "[data-at=\"bsk_sku_brand\"]") with
  | .error e => .error e
  | .ok brand =>
    match extractText (some element) (some "[data-at=\"bsk_sku_name\"]") with
    | .error e => .error e
    | .ok productName =>
      match sephoraBuildFullName brand productName with
      | none => .ok none
      | some fullName =>
        if fullName = "" then .ok none
        else
          match extractText (some element) (some "[data-at=\"bsk_sku_price\"]") with
          | .error e => .error e
          | .ok price? =>
            match sephoraQuantity element with
            | .error e => .error e
            | .ok quantity =>
              .ok (some { name := fullName, price := jsOrStr price? none,
                          quantity := jsNumOrUndef (some quantity) })

/-- The `cartItems.forEach` loop of `SephoraExtractor.extract` with its
per-item `try`/`catch`. -/
def sephoraLoop : List Element → List CartItem
  | [] => []
  | element :: rest =>
    match sephoraExtractItem element with
    | .ok (some item) =>
      if isValidItem item then item :: sephoraLoop rest else sephoraLoop rest
    | .ok none => sephoraLoop rest
    | .error _ => sephoraLoop rest

/-- `SephoraExtractor.extract()`. -/
def sephoraExtract (doc : Element) : Except DomErr (List CartItem) :=
  match doc.queryAll "[data-at=\"product_refinement\"]" with
  | .error e => .error e
  | .ok cartItems =>
    if cartItems.length = 0 then .ok []
    else .ok (deduplicateItems (sephoraLoop cartItems))

/-! ## `BestBuyExtractor` (bespoke strategy) -/

/-- `BestBuyExtractor.extractBestBuyQuantity(element)`. -/
def bestBuyQuantity (element : Element) : Except DomErr Int :=
  match element.querySelector ".fluid-item__quantity select.tb-select" with
  | .error e => .error e
  | .ok (some quantitySelect) => .ok (extractQuantityFromInput (some quantitySelect))
  | .ok none => .ok 1

/-- `BestBuyExtractor.extractBestBuyItem(element)`: name through three
selector fallbacks, price through two, then quantity. -/
def bestBuyExtractItem (element : Element) : Except DomErr (Option CartItem) :=
  match extractText (some element) (some "h2.cart-item__title-heading > a.cart-item__title") with
  | .error e => .error e
  | .ok name₁ =>
    match (if truthyStr name₁ then .ok name₁
           else extractText (some element) (some "a.cart-item__title")
           : Except DomErr (Option String)) with
    | .error e => .error e
    | .ok name₂ =>
      match (if truthyStr name₂ then .ok name₂
             else extractText (some element) (some "h2.cart-item__title-heading")
             : Except DomErr (Option String)) with
      | .error e => .error e
      | .ok productName? =>
        if truthyStr productName? then
          match extractText (some element)
              (some ".fluid-item__price .price-block__primary-price .price-block__inline") with
          | .error e => .error e
          | .ok price₁ =>
            match (if truthyStr price₁ then .ok price₁
                   else extractText (some element) (some ".price-block__primary-price")
                   : Except DomErr (Option String)) with
            | .error e => .error e
            | .ok price? =>
              match bestBuyQuantity element with
              | .error e => .error e
              | .ok quantity =>
                .ok (some { name := jsTrim (productName?.getD ""),
                            price := jsOrStr (price?.map jsTrim) none,
                            quantity := jsNumOrUndef (some quantity) })
        else .ok none

/-- The `cartItems.forEach` loop of `BestBuyExtractor.extract` with its
per-item `try`/`catch`. -/
def bestBuyLoop : List Element → List CartItem
  | [] => []
  | element :: rest =>
    match bestBuyExtractItem element with
    | .ok (some item) =>
      if isValidItem item then item :: bestBuyLoop rest else bestBuyLoop rest
    | .ok none => bestBuyLoop rest
    | .error _ => bestBuyLoop rest

/-- The selector-fallback chain at the top of `BestBuyExtractor.extract`. -/
def bestBuyCartItems (doc : Element) : Except DomErr (List Element) :=
  match doc.queryAll "ul.item-list > li > section.card" with
  | .error e => .error e
  | .ok cartItems₁ =>
    if cartItems₁.length ≠ 0 then .ok cartItems₁
    else
      match doc.queryAll "section.card" with
      | .error e => .error e
      | .ok cartItems₂ =>
        if cartItems₂.length ≠ 0 then .ok cartItems₂
        else doc.queryAll ".fluid-item"

/-- `BestBuyExtractor.extract()`. -/
def bestBuyExtract (doc : Element) : Except DomErr (List CartItem) :=
  match bestBuyCartItems doc with
  | .error e => .error e
  | .ok cartItems =>
    if cartItems.length = 0 then .ok []
    else .ok (deduplicateItems (bestBuyLoop cartItems))

/-! ## Strategy objects and the `ExtractorRegistry` (part_008) -/

/-- A strategy instance: the `BaseExtractor` interface data.  `canHandleImpl`
is `none` for strategies using the inherited default `canHandle` and `some f`
for strategies overriding it (the generic fallback overrides it to `false`).
`extractImpl` is the strategy's `extract()` as a function of the document. -/
structure Strategy where
  siteId : String
  displayName : String
  urlPatterns : List String
  canHandleImpl : Option (String → Bool) := none
  extractImpl : Element → Except DomErr (List CartItem)

/-- Dynamic dispatch of `canHandle`. -/
def Strategy.canHandle (s : Strategy) (hostname : String) : Bool :=
  match s.canHandleImpl with
  | some f => f hostname
  | none => defaultCanHandle s.urlPatterns hostname

/-- `ExtractionResult` from `extractor.types.ts` (duration omitted: wall-clock
timing is observability only). -/
structure ExtractionResult where
  items : List CartItem
  extractorId : String
  success : Bool
  error : Option String := none
  deriving Repr, DecidableEq

/-- `BaseExtractor.extractWithMetadata()`: run `extract()` under a
`try`/`catch`; a thrown error becomes an empty-item failure result. -/
def extractWithMetadata (s : Strategy) (doc : Element) : ExtractionResult :=
  match s.extractImpl doc with
  | .ok items =>
    { items := items, extractorId := s.siteId, success := true, error := none }
  | .error e =>
    { items := [], extractorId := s.siteId, success := false,
      error := some e.message }

/-- Registry-level errors: `findExtractor` throws a JS `Error` when no
fallback is registered. -/
inductive RegError where
  | noFallback
  deriving Repr, DecidableEq

/-- `ExtractorRegistry` state: the `Map<string, BaseExtractor>` is an
insertion-ordered association list (ECMAScript `Map` iteration order), plus
the fallback reference. -/
structure Registry where
  extractors : List (String × Strategy)
  fallbackExtractor : Option Strategy := none

/-- `ExtractorRegistry.register(extractor)`: JS `Map.set` — an existing key
keeps its position and gets the new value; a new key is appended. -/
def Registry.register (r : Registry) (s : Strategy) : Registry :=
  if r.extractors.any (fun kv => kv.1 = s.siteId) then
    { r with extractors :=
        r.extractors.map fun kv => if kv.1 = s.siteId then (kv.1, s) else kv }
  else
    { r with extractors := r.extractors ++ [(s.siteId, s)] }

/-- `ExtractorRegistry.registerAll(extractors)`. -/
def Registry.registerAll (r : Registry) (ss : List Strategy) : Registry :=
  ss.foldl Registry.register r

/-- `ExtractorRegistry.setFallback(extractor)`. -/
def Registry.setFallback (r : Registry) (s : Strategy) : Registry :=
  { r with fallbackExtractor := some s }

/-- The registered strategies in iteration (= registration) order. -/
def Registry.values (r : Registry) : List Strategy :=
  r.extractors.map Prod.snd

/-- `ExtractorRegistry.findExtractor(hostname)`: first registered strategy
whose `canHandle` accepts, else the fallback, else a thrown `Error`. -/
def Registry.findExtractor (r : Registry) (hostname : String) :
    Except RegError Strategy :=
  match r.values.find? (fun s => s.canHandle hostname) with
  | some s => .ok s
  | none =>
    match r.fallbackExtractor with
    | some f => .ok f
    | none => .error .noFallback

/-- `ExtractorRegistry.extract(hostname)`: resolve, then
`extractWithMetadata` (the resolution error is outside the strategy-level
`try`/`catch` and propagates). -/
def Registry.extract (r : Registry) (hostname : String) (doc : Element) :
    Except RegError ExtractionResult :=
  match r.findExtractor hostname with
  | .error e => .error e
  | .ok extractor => .ok (extractWithMetadata extractor doc)

/-- `ExtractorRegistry.extractItems(hostname)`. -/
def Registry.extractItems (r : Registry) (hostname : String) (doc : Element) :
    Except RegError (List CartItem) :=
  match r.extract hostname doc with
  | .error e => .error e
  | .ok result => .ok result.items

/-- `ExtractorRegistry.isSupported(hostname)`. -/
def Registry.isSupported (r : Registry) (hostname : String) : Bool :=
  r.values.any fun s => s.canHandle hostname

/-! ## Content-script entry point (part_015) -/

/-- `window.__CC_extractCartItems`: `registry.extractItems` under a
`try`/`catch` that turns any escaped error into an empty list. -/
def ccExtractCartItems (r : Registry) (hostname : String) (doc : Element) :
    List CartItem :=
  match r.extractItems hostname doc with
  | .ok items => items
  | .error _ => []

/-! ## Lemmas about the string primitives -/

theorem dropWhile_head?_not (p : Char → Bool) (l : List Char) :
    ∀ c, (l.dropWhile p).head? = some c → p c = false := by
  induction l with
  | nil => intro c h; simp at h
  | cons a as ih =>
    intro c h
    rw [List.dropWhile_cons] at h
    cases hpa : p a with
    | true => rw [hpa] at h; simp only [if_true] at h; exact ih c h
    | false =>
      rw [hpa] at h
      simp only [Bool.false_eq_true, if_false, List.head?_cons, Option.some.injEq] at h
      rw [← h]; exact hpa

theorem dropWhile_eq_self_of_head (p : Char → Bool) (l : List Char)
    (h : ∀ c, l.head? = some c → p c = false) : l.dropWhile p = l := by
  cases l with
  | nil => rfl
  | cons a as =>
    rw [List.dropWhile_cons, h a rfl]
    simp

theorem getLast?_dropWhile (p : Char → Bool) (l : List Char)
    (h : l.dropWhile p ≠ []) : (l.dropWhile p).getLast? = l.getLast? := by
  induction l with
  | nil => simp at h
  | cons a as ih =>
    rw [List.dropWhile_cons] at h ⊢
    cases hpa : p a with
    | true =>
      rw [hpa] at h
      simp only [if_true] at h ⊢
      rw [ih h]
      cases as with
      | nil => simp [List.dropWhile] at h
      | cons b bs => rw [List.getLast?_cons_cons]
    | false => simp

theorem dropWhile_idem (p : Char → Bool) (l : List Char) :
    (l.dropWhile p).dropWhile p = l.dropWhile p :=
  dropWhile_eq_self_of_head p _ (dropWhile_head?_not p l)

theorem trimL_eq_self (cs : List Char) (h1 : cs.dropWhile isJsWS = cs)
    (h2 : cs.reverse.dropWhile isJsWS = cs.reverse) : trimL cs = cs := by
  unfold trimL
  rw [h1, h2, List.reverse_reverse]

theorem trimL_idem (cs : List Char) : trimL (trimL cs) = trimL cs := by
  apply trimL_eq_self
  · apply dropWhile_eq_self_of_head
    intro c hc
    unfold trimL at hc
    rw [List.head?_reverse] at hc
    have hne : (((cs.dropWhile isJsWS).reverse).dropWhile isJsWS) ≠ [] := by
      intro hnil; rw [hnil] at hc; simp at hc
    rw [getLast?_dropWhile _ _ hne, List.getLast?_reverse] at hc
    exact dropWhile_head?_not _ _ _ hc
  · unfold trimL
    rw [List.reverse_reverse]
    exact dropWhile_idem _ _

theorem jsTrim_idem (s : String) : jsTrim (jsTrim s) = jsTrim s := by
  unfold jsTrim
  exact congrArg String.mk (trimL_idem s.data)

theorem isPrefixL_iff : ∀ p h : List Char, isPrefixL p h = true ↔ ∃ t, h = p ++ t := by
  intro p
  induction p with
  | nil => intro h; simp [isPrefixL]
  | cons a as ih =>
    intro h
    cases h with
    | nil => simp [isPrefixL]
    | cons b bs =>
      simp only [isPrefixL, Bool.and_eq_true, decide_eq_true_eq, ih bs]
      constructor
      · rintro ⟨rfl, t, rfl⟩; exact ⟨t, rfl⟩
      · rintro ⟨t, ht⟩
        rw [List.cons_append] at ht
        injection ht with h1 h2
        exact ⟨h1.symm, t, h2⟩

theorem containsL_iff : ∀ hay pat : List Char,
    containsL hay pat = true ↔ ∃ pre post, hay = pre ++ pat ++ post := by
  intro hay pat
  induction hay with
  | nil =>
    rw [containsL]
    simp only [Bool.or_false, isPrefixL_iff]
    constructor
    · rintro ⟨t, ht⟩; exact ⟨[], t, by simpa using ht⟩
    · rintro ⟨pre, post, h⟩
      have h' := h.symm
      rw [List.append_assoc] at h'
      rcases List.append_eq_nil.mp h' with ⟨hpre, hrest⟩
      rcases List.append_eq_nil.mp hrest with ⟨hpat, hpost⟩
      exact ⟨[], by simp [hpat]⟩
  | cons a hs ih =>
    rw [containsL]
    simp only [Bool.or_eq_true, isPrefixL_iff, ih]
    constructor
    · rintro (⟨t, ht⟩ | ⟨pre, post, h⟩)
      · exact ⟨[], t, by simpa using ht⟩
      · exact ⟨a :: pre, post, by simp [h]⟩
    · rintro ⟨pre, post, h⟩
      cases pre with
      | nil => exact .inl ⟨post, by simpa using h⟩
      | cons c cs =>
        right
        simp only [List.cons_append] at h
        injection h with h1 h2
        exact ⟨cs, post, h2⟩

theorem jsIncludes_iff (s pat : String) :
    jsIncludes s pat = true ↔ ∃ pre post, s.data = pre ++ pat.data ++ post :=
  containsL_iff s.data pat.data

/-! ## Lemmas about deduplication -/

theorem dedupGo_sublist : ∀ (items : List CartItem) (seen : List String),
    (dedupGo items seen).Sublist items := by
  intro items
  induction items with
  | nil => intro seen; simp [dedupGo]
  | cons item rest ih =>
    intro seen
    rw [dedupGo]
    split
    · exact (ih seen).trans (List.sublist_cons_self item rest)
    · exact (ih (dedupKey item.name :: seen)).cons₂ item

theorem dedupGo_not_seen : ∀ (items : List CartItem) (seen : List String)
    (i : CartItem), i ∈ dedupGo items seen → dedupKey i.name ∉ seen := by
  intro items
  induction items with
  | nil => intro seen i h; simp [dedupGo] at h
  | cons item rest ih =>
    intro seen i h
    rw [dedupGo] at h
    split at h
    · exact ih seen i h
    · rcases List.mem_cons.mp h with rfl | hmem
      · assumption
      · have := ih _ i hmem
        intro hs
        exact this (List.mem_cons_of_mem _ hs)

theorem dedupGo_pairwise : ∀ (items : List CartItem) (seen : List String),
    (dedupGo items seen).Pairwise (fun a b => dedupKey a.name ≠ dedupKey b.name) := by
  intro items
  induction items with
  | nil => intro seen; simp [dedupGo]
  | cons item rest ih =>
    intro seen
    rw [dedupGo]
    split
    · exact ih seen
    · refine List.Pairwise.cons ?_ (ih _)
      intro b hb hkey
      exact dedupGo_not_seen _ _ _ hb (by rw [← hkey]; exact List.mem_cons_self _ _)

theorem dedupGo_find? : ∀ (items : List CartItem) (seen : List String) (k : String),
    k ∉ seen →
    (dedupGo items seen).find? (fun i => dedupKey i.name == k) =
      items.find? (fun i => dedupKey i.name == k) := by
  intro items
  induction items with
  | nil => intro seen k _; simp [dedupGo]
  | cons item rest ih =>
    intro seen k hk
    rw [dedupGo]
    split
    · rename_i hseen
      have hne : (dedupKey item.name == k) = false := by
        rw [beq_eq_false_iff_ne]
        intro heq; rw [heq] at hseen; exact hk hseen
      rw [List.find?_cons_of_neg _ (by simp [hne]), ih seen k hk]
    · by_cases heq : dedupKey item.name = k
      · rw [List.find?_cons_of_pos _ (by simp [heq]),
          List.find?_cons_of_pos _ (by simp [heq])]
      · rw [List.find?_cons_of_neg _ (by simp [heq]),
          List.find?_cons_of_neg _ (by simp [heq])]
        exact ih _ k (by simp [hk, Ne.symm, heq])

theorem deduplicateItems_sublist (items : List CartItem) :
    (deduplicateItems items).Sublist items :=
  dedupGo_sublist items []

theorem mem_deduplicateItems {items : List CartItem} {i : CartItem}
    (h : i ∈ deduplicateItems items) : i ∈ items :=
  (deduplicateItems_sublist items).mem h

/-! ## Claim C3 -/

/-- C3: `deduplicateItems` returns exactly one record per distinct key
(the record's name lowercased and trimmed): the output is a subsequence of
the input (so kept records appear in first-occurrence order), no two output
records share a key, and for every key the first matching record of the
output equals the first matching record of the input — hence each key of the
input is represented exactly by its first occurrence and later records with
the same key are discarded. -/
theorem deduplicateItems_spec (items : List CartItem) :
    (deduplicateItems items).Sublist items
    ∧ (deduplicateItems items).Pairwise
        (fun a b => dedupKey a.name ≠ dedupKey b.name)
    ∧ ∀ k : String,
        (deduplicateItems items).find? (fun i => dedupKey i.name == k) =
          items.find? (fun i => dedupKey i.name == k) :=
  ⟨dedupGo_sublist items [], dedupGo_pairwise items [],
   fun k => dedupGo_find? items [] k (List.not_mem_nil k)⟩

/-! ## Claim C1 -/

theorem find?_first {α : Type} (p : α → Bool) :
    ∀ (l : List α) (i : Nat) (hi : i < l.length),
      p (l.get ⟨i, hi⟩) = true →
      (∀ j (hj : j < i), p (l.get ⟨j, Nat.lt_trans hj hi⟩) = false) →
      l.find? p = some (l.get ⟨i, hi⟩) := by
  intro l
  induction l with
  | nil => intro i hi; simp at hi
  | cons a as ih =>
    intro i hi hp hearlier
    cases i with
    | zero =>
      have hp' : p a = true := hp
      rw [List.find?_cons_of_pos _ hp']
      rfl
    | succ n =>
      have ha : p a = false := by
        have := hearlier 0 (Nat.succ_pos n)
        simpa using this
      rw [List.find?_cons_of_neg _ (by simp [ha])]
      simp only [List.get_cons_succ]
      exact ih n (Nat.lt_of_succ_lt_succ hi) hp (fun j hj => by
        have := hearlier (j + 1) (Nat.succ_lt_succ hj)
        simpa using this)

/-- C1: `findExtractor` scans the registered strategies in registration
order and returns the first whose `canHandle(hostname)` is true; when no
registered strategy matches it returns the fallback if one is set (so a
specific strategy and the fallback are never both selected) and throws when
none is set; and the default `canHandle` holds iff the lowercased hostname
contains some lowercased `urlPattern` as a substring. -/
theorem findExtractor_spec (r : Registry) (hostname : String) :
    (∀ i (hi : i < r.values.length),
        (r.values.get ⟨i, hi⟩).canHandle hostname = true →
        (∀ j (hj : j < i),
          (r.values.get ⟨j, Nat.lt_trans hj hi⟩).canHandle hostname = false) →
        r.findExtractor hostname = .ok (r.values.get ⟨i, hi⟩))
    ∧ ((∀ s ∈ r.values, s.canHandle hostname = false) →
        (∀ f, r.fallbackExtractor = some f →
            r.findExtractor hostname = .ok f)
        ∧ (r.fallbackExtractor = none →
            r.findExtractor hostname = .error .noFallback))
    ∧ (∀ s : Strategy, s.canHandleImpl = none →
        (s.canHandle hostname = true ↔
          ∃ p ∈ s.urlPatterns, ∃ pre post,
            (jsToLower hostname).data = pre ++ (jsToLower p).data ++ post)) := by
  refine ⟨?_, ?_, ?_⟩
  · intro i hi hp hearlier
    unfold Registry.findExtractor
    rw [find?_first _ r.values i hi hp hearlier]
  · intro hnone
    have hfind : r.values.find? (fun s => s.canHandle hostname) = none :=
      List.find?_eq_none.mpr (fun s hs => by simp [hnone s hs])
    constructor
    · intro f hf
      unfold Registry.findExtractor
      rw [hfind, hf]
    · intro hf
      unfold Registry.findExtractor
      rw [hfind, hf]
  · intro s hs
    unfold Strategy.canHandle
    rw [hs]
    unfold defaultCanHandle
    rw [List.any_eq_true]
    constructor
    · rintro ⟨p, hp, hinc⟩
      exact ⟨p, hp, (jsIncludes_iff _ _).mp hinc⟩
    · rintro ⟨p, hp, pre, post, h⟩
      exact ⟨p, hp, (jsIncludes_iff _ _).mpr ⟨pre, post, h⟩⟩

/-- A registered strategy matching `alpha.com` (witness data). -/
def wStratA : Strategy :=
  { siteId := "a", displayName := "A", urlPatterns := ["alpha.com"],
    extractImpl := fun _ => .ok [] }

/-- A registered strategy matching `beta.com` (witness data). -/
def wStratB : Strategy :=
  { siteId := "b", displayName := "B", urlPatterns := ["beta.com"],
    extractImpl := fun _ => .ok [] }

/-- A fallback strategy whose `canHandle` override always refuses
(witness data). -/
def wFallback : Strategy :=
  { siteId := "generic", displayName := "Generic (Fallback)",
    urlPatterns := ["*"], canHandleImpl := some (fun _ => false),
    extractImpl := fun _ => .ok [] }

/-- A bootstrapped registry with two site strategies and the generic
fallback (witness data). -/
def wReg : Registry :=
  { extractors := [("a", wStratA), ("b", wStratB)],
    fallbackExtractor := some wFallback }

theorem findExtractor_spec_witness :
    wReg.findExtractor "www.Beta.com" = .ok wStratB
    ∧ wReg.findExtractor "unknown-store.test" = .ok wFallback
    ∧ wStratB.canHandle "www.Beta.com" = true := by
  refine ⟨?_, ?_, ?_⟩
  · have hi : 1 < wReg.values.length := by decide
    have h := (findExtractor_spec wReg "www.Beta.com").1 1 hi
      ((by decide : wStratB.canHandle "www.Beta.com" = true))
      (fun j hj => by
        have hj0 : j = 0 := Nat.lt_one_iff.mp hj
        subst hj0
        exact (by decide : wStratA.canHandle "www.Beta.com" = false))
    exact h
  · exact ((findExtractor_spec wReg "unknown-store.test").2.1
      (by decide)).1 wFallback rfl
  · exact ((findExtractor_spec wReg "www.Beta.com").2.2 wStratB rfl).mpr
      ⟨"beta.com", by decide, "www.".data, [], by decide⟩

/-! ## Claim C2 -/

/-- C2: whenever `findExtractor` resolves a strategy and that strategy's
`extract()` throws, the registry-level extraction returns an empty item
sequence (with the failure recorded in the result metadata) and the
exception is not propagated to the caller. -/
theorem registry_extract_resilient (r : Registry) (hostname : String)
    (doc : Element) (s : Strategy) (e : DomErr)
    (hfind : r.findExtractor hostname = .ok s)
    (hthrow : s.extractImpl doc = .error e) :
    r.extract hostname doc =
      .ok { items := [], extractorId := s.siteId, success := false,
            error := some e.message }
    ∧ r.extractItems hostname doc = .ok [] := by
  have hx : r.extract hostname doc =
      .ok { items := [], extractorId := s.siteId, success := false,
            error := some e.message } := by
    unfold Registry.extract
    rw [hfind]
    show Except.ok (extractWithMetadata s doc) = _
    unfold extractWithMetadata
    rw [hthrow]
  refine ⟨hx, ?_⟩
  unfold Registry.extractItems
  rw [hx]

/-- A strategy whose `extract()` always throws (witness data). -/
def wThrow : Strategy :=
  { siteId := "boom", displayName := "Boom", urlPatterns := ["boom.com"],
    extractImpl := fun _ => .error ⟨"kaboom"⟩ }

/-- A registry holding only the throwing strategy (witness data). -/
def wRegT : Registry :=
  { extractors := [("boom", wThrow)], fallbackExtractor := none }

/-- An inert document (witness data). -/
def wDoc : Element := .mk .other "" "" fun _ => .ok []

theorem registry_extract_resilient_witness :
    wRegT.extract "boom.com" wDoc =
      .ok { items := [], extractorId := "boom", success := false,
            error := some "kaboom" }
    ∧ wRegT.extractItems "boom.com" wDoc = .ok [] :=
  registry_extract_resilient wRegT "boom.com" wDoc wThrow ⟨"kaboom"⟩ rfl rfl

/-! ## Claim C10 -/

/-- C10: `register` on an already-registered `siteId` only replaces the
stored strategy for that id: the fallback reference is unchanged, the site-id
iteration order used by `findExtractor` is unchanged (so the re-registered
strategy keeps its original priority position instead of moving to the end),
the map is exactly the old map with that one value swapped, and entries under
every other id are untouched. -/
theorem register_existing_frame (r : Registry) (s : Strategy)
    (h : r.extractors.any (fun kv => kv.1 = s.siteId) = true) :
    (r.register s).fallbackExtractor = r.fallbackExtractor
    ∧ (r.register s).extractors.map Prod.fst = r.extractors.map Prod.fst
    ∧ (r.register s).extractors =
        r.extractors.map (fun kv => if kv.1 = s.siteId then (kv.1, s) else kv)
    ∧ ∀ kv ∈ r.extractors, kv.1 ≠ s.siteId → kv ∈ (r.register s).extractors := by
  have hreg : r.register s =
      { r with extractors :=
          r.extractors.map fun kv => if kv.1 = s.siteId then (kv.1, s) else kv } := by
    unfold Registry.register
    rw [if_pos h]
  refine ⟨by rw [hreg], ?_, by rw [hreg], ?_⟩
  · rw [hreg]
    simp only [List.map_map]
    apply List.map_congr_left
    intro kv _
    by_cases hkv : kv.1 = s.siteId <;> simp [hkv]
  · intro kv hkv hne
    rw [hreg]
    simp only [List.mem_map]
    exact ⟨kv, hkv, by simp [hne]⟩

/-- An updated strategy re-registered under the already-present id `"a"`
(witness data). -/
def wStratA2 : Strategy :=
  { siteId := "a", displayName := "A v2", urlPatterns := ["alpha.com", "alpha.ca"],
    extractImpl := fun _ => .ok [] }

theorem register_existing_frame_witness :
    (wReg.register wStratA2).fallbackExtractor = wReg.fallbackExtractor
    ∧ (wReg.register wStratA2).extractors.map Prod.fst =
        wReg.extractors.map Prod.fst
    ∧ (wReg.register wStratA2).extractors =
        wReg.extractors.map
          (fun kv => if kv.1 = wStratA2.siteId then (kv.1, wStratA2) else kv)
    ∧ ∀ kv ∈ wReg.extractors, kv.1 ≠ wStratA2.siteId →
        kv ∈ (wReg.register wStratA2).extractors :=
  register_existing_frame wReg wStratA2 (by decide)

/-! ## Claim C5 -/

/-- C5 counterexample: an input element whose `value` is `"0"` makes
`extractQuantityFromInput` return 0, and value `"-2"` makes it return −2 —
refuting "it never returns 0 or a negative number". -/
theorem extractQuantityFromInput_nonpositive :
    extractQuantityFromInput (some (.mk .input "0" "" fun _ => .ok [])) = 0
    ∧ extractQuantityFromInput (some (.mk .input "-2" "" fun _ => .ok [])) = -2 :=
  ⟨rfl, rfl⟩

/-- C5 (amended): `extractQuantityFromInput` returns 1 when the element is
absent or its value/text does not parse as an integer; otherwise it returns
the parsed integer unchanged — which may be 0 or negative (positivity is
enforced by callers, not by this helper). -/
theorem extractQuantityFromInput_spec :
    extractQuantityFromInput none = 1
    ∧ (∀ el : Element, el.kind = .input ∨ el.kind = .select →
        jsParseInt el.value = none → extractQuantityFromInput (some el) = 1)
    ∧ (∀ el : Element, el.kind = .input ∨ el.kind = .select →
        ∀ v, jsParseInt el.value = some v →
          extractQuantityFromInput (some el) = v)
    ∧ (∀ el : Element, el.kind = .other →
        jsParseInt (jsTrim el.textContent) = none →
        extractQuantityFromInput (some el) = 1)
    ∧ (∀ el : Element, el.kind = .other →
        ∀ v, jsParseInt (jsTrim el.textContent) = some v →
          extractQuantityFromInput (some el) = v) := by
  refine ⟨rfl, ?_, ?_, ?_, ?_⟩
  · intro el hk hp
    obtain ⟨k, val, txt, q⟩ := el
    simp only [Element.kind] at hk
    simp only [Element.value] at hp
    rcases hk with rfl | rfl <;> simp [extractQuantityFromInput, Element.kind, Element.value, hp]
  · intro el hk v hp
    obtain ⟨k, val, txt, q⟩ := el
    simp only [Element.kind] at hk
    simp only [Element.value] at hp
    rcases hk with rfl | rfl <;> simp [extractQuantityFromInput, Element.kind, Element.value, hp]
  · intro el hk hp
    obtain ⟨k, val, txt, q⟩ := el
    simp only [Element.kind] at hk
    simp only [Element.textContent] at hp
    subst hk
    simp [extractQuantityFromInput, Element.kind, Element.textContent, hp]
  · intro el hk v hp
    obtain ⟨k, val, txt, q⟩ := el
    simp only [Element.kind] at hk
    simp only [Element.textContent] at hp
    subst hk
    simp [extractQuantityFromInput, Element.kind, Element.textContent, hp]

theorem extractQuantityFromInput_spec_witness :
    extractQuantityFromInput (some (.mk .input "abc" "" fun _ => .ok [])) = 1
    ∧ extractQuantityFromInput (some (.mk .select " 7 items" "" fun _ => .ok [])) = 7
    ∧ extractQuantityFromInput (some (.mk .other "" " 12 " fun _ => .ok [])) = 12 :=
  ⟨extractQuantityFromInput_spec.2.1 (.mk .input "abc" "" fun _ => .ok [])
      (.inl rfl) rfl,
   extractQuantityFromInput_spec.2.2.1 (.mk .select " 7 items" "" fun _ => .ok [])
      (.inr rfl) 7 rfl,
   extractQuantityFromInput_spec.2.2.2.2 (.mk .other "" " 12 " fun _ => .ok [])
      rfl 12 rfl⟩

/-! ## Claim C6 -/

theorem extractText_ok_some {el? : Option Element} {sel? : Option String}
    {s : String} (h : extractText el? sel? = .ok (some s)) :
    jsTrim s = s ∧ s ≠ "" := by
  unfold extractText at h
  split at h
  · exact absurd h (by simp)
  · split at h
    · exact absurd h (by simp)
    · exact absurd h (by simp)
    · rename_i t heq
      have h' : Except.ok (ε := DomErr)
          (if jsTrim t.textContent = "" then none
           else some (jsTrim t.textContent)) = .ok (some s) := h
      by_cases hb : jsTrim t.textContent = ""
      · rw [if_pos hb] at h'
        exact absurd h' (by simp)
      · rw [if_neg hb] at h'
        simp only [Except.ok.injEq, Option.some.injEq] at h'
        subst h'
        exact ⟨jsTrim_idem _, hb⟩

theorem configResolveName_error {cfg : ExtractorConfig} {el : Element}
    {e : DomErr} (h : configResolveName cfg el = .error e) :
    configExtractItem cfg el = .error e := by
  unfold configExtractItem
  rw [h]

theorem configResolveName_ok_none {cfg : ExtractorConfig} {el : Element}
    (h : configResolveName cfg el = .ok none) :
    configExtractItem cfg el = .ok none := by
  unfold configExtractItem
  rw [h]
  rfl

theorem configExtractItem_ok_name {cfg : ExtractorConfig} {el : Element}
    {item : CartItem} (h : configExtractItem cfg el = .ok (some item)) :
    ∃ nm, configResolveName cfg el = .ok (some nm) ∧ nm ≠ ""
      ∧ item.name = nm := by
  unfold configExtractItem at h
  split at h
  · exact absurd h (by simp)
  · rename_i name? heq
    by_cases ht : truthyStr name? = true
    · rw [if_pos ht] at h
      cases name? with
      | none => simp [truthyStr] at ht
      | some nm =>
        refine ⟨nm, heq, by simpa [truthyStr] using ht, ?_⟩
        split at h
        · exact absurd h (by simp)
        · split at h
          · exact absurd h (by simp)
          · simp only [Except.ok.injEq, Option.some.injEq] at h
            subst h
            rfl
    · rw [if_neg ht] at h
      exact absurd h (by simp)

/-- C6: name resolution in the declarative strategy.  With a configured
`customNameExtractor` the emitted record's name is exactly its result (and a
falsy result emits no record).  Without one: when both a brand text and a
name text resolve and `combineBrandName` is not `false`, the record's name is
the trimmed `"{brand} {name}"` concatenation; otherwise the name text is
preferred with the brand text as fallback; and when no name resolves the
element yields no record. -/
theorem configExtractItem_name_spec (cfg : ExtractorConfig) (el : Element) :
    (∀ f, cfg.customNameExtractor = some f →
      (∀ s item, f el = .ok s → configExtractItem cfg el = .ok (some item) →
          s = some item.name)
      ∧ (∀ s, f el = .ok s → truthyStr s = false →
          configExtractItem cfg el = .ok none))
    ∧ (cfg.customNameExtractor = none →
        (∀ b n, configBrandText cfg el = .ok (some b) →
            configNameText cfg el = .ok (some n) →
            cfg.combineBrandName ≠ some false →
            ∀ item, configExtractItem cfg el = .ok (some item) →
              item.name = jsTrim (b ++ " " ++ n))
        ∧ (∀ n, configNameText cfg el = .ok (some n) →
            (cfg.combineBrandName = some false ∨ configBrandText cfg el = .ok none) →
            ∀ item, configExtractItem cfg el = .ok (some item) → item.name = n)
        ∧ (∀ b, configBrandText cfg el = .ok (some b) →
            configNameText cfg el = .ok none →
            ∀ item, configExtractItem cfg el = .ok (some item) → item.name = b)
        ∧ (configNameText cfg el = .ok none → configBrandText cfg el = .ok none →
            configExtractItem cfg el = .ok none)) := by
  constructor
  · intro f hf
    have hres : configResolveName cfg el = f el := by
      unfold configResolveName; rw [hf]
    constructor
    · intro s item hs hitem
      obtain ⟨nm, hnm, _, hname⟩ := configExtractItem_ok_name hitem
      rw [hres, hs] at hnm
      simp only [Except.ok.injEq] at hnm
      rw [hnm, hname]
    · intro s hs htruthy
      unfold configExtractItem
      rw [hres, hs]
      simp [htruthy]
  · intro hcustom
    refine ⟨?_, ?_, ?_, ?_⟩
    · intro b n hb hn hc item hitem
      have hbne : b ≠ "" := by
        unfold configBrandText at hb
        cases hbs : cfg.brandSelector with
        | none => rw [hbs] at hb; exact absurd hb (by simp)
        | some bs => rw [hbs] at hb; exact (extractText_ok_some hb).2
      have hnne : n ≠ "" := (extractText_ok_some hn).2
      have hres : configResolveName cfg el = .ok (some (jsTrim (b ++ " " ++ n))) := by
        unfold configResolveName
        rw [hcustom, hb, hn]
        have : (truthyStr (some b) && truthyStr (some n) &&
            decide (cfg.combineBrandName ≠ some false)) = true := by
          simp [truthyStr, hbne, hnne, hc]
        simp only [this, if_true]
        rfl
      obtain ⟨nm, hnm, _, hname⟩ := configExtractItem_ok_name hitem
      rw [hres] at hnm
      simp only [Except.ok.injEq, Option.some.injEq] at hnm
      rw [hname, ← hnm]
    · intro n hn hcond item hitem
      have hnne : n ≠ "" := (extractText_ok_some hn).2
      obtain ⟨nm, hnm, _, hname⟩ := configExtractItem_ok_name hitem
      rcases hcond with hcomb | hbnone
      · cases hbt : configBrandText cfg el with
        | error e =>
          have : configResolveName cfg el = .error e := by
            unfold configResolveName; rw [hcustom, hbt]
          rw [this] at hnm
          exact absurd hnm (by simp)
        | ok bt =>
          have hres : configResolveName cfg el = .ok (some n) := by
            unfold configResolveName
            rw [hcustom, hbt, hn]
            have : (truthyStr bt && truthyStr (some n) &&
                decide (cfg.combineBrandName ≠ some false)) = false := by
              simp [hcomb]
            simp only [this, if_false]
            simp [jsOrStr, truthyStr, hnne]
          rw [hres] at hnm
          simp only [Except.ok.injEq, Option.some.injEq] at hnm
          rw [hname, ← hnm]
      · have hres : configResolveName cfg el = .ok (some n) := by
          unfold configResolveName
          rw [hcustom, hbnone, hn]
          have : (truthyStr (none : Option String) && truthyStr (some n) &&
              decide (cfg.combineBrandName ≠ some false)) = false := by
            simp [truthyStr]
          simp only [this, if_false]
          simp [jsOrStr, truthyStr, hnne]
        rw [hres] at hnm
        simp only [Except.ok.injEq, Option.some.injEq] at hnm
        rw [hname, ← hnm]
    · intro b hb hn item hitem
      have hbne : b ≠ "" := by
        unfold configBrandText at hb
        cases hbs : cfg.brandSelector with
        | none => rw [hbs] at hb; exact absurd hb (by simp)
        | some bs => rw [hbs] at hb; exact (extractText_ok_some hb).2
      have hres : configResolveName cfg el = .ok (some b) := by
        unfold configResolveName
        rw [hcustom, hb, hn]
        have : (truthyStr (some b) && truthyStr (none : Option String) &&
            decide (cfg.combineBrandName ≠ some false)) = false := by
          simp [truthyStr]
        simp only [this, if_false]
        simp [jsOrStr, truthyStr]
      obtain ⟨nm, hnm, _, hname⟩ := configExtractItem_ok_name hitem
      rw [hres] at hnm
      simp only [Except.ok.injEq, Option.some.injEq] at hnm
      rw [hname, ← hnm]
    · intro hn hb
      apply configResolveName_ok_none
      unfold configResolveName
      rw [hcustom, hb, hn]
      have : (truthyStr (none : Option String) && truthyStr (none : Option String) &&
          decide (cfg.combineBrandName ≠ some false)) = false := by
        simp [truthyStr]
      simp only [this, if_false]
      simp [jsOrStr, truthyStr]

/-- A brand node (witness data). -/
def wElBrand : Element := .mk .other "" "  BrandX " fun _ => .ok []

/-- A product-name node (witness data). -/
def wElName : Element := .mk .other "" " Gadget Pro " fun _ => .ok []

/-- A cart-row element resolving `.brand` and `.name` (witness data). -/
def wElRow : Element := .mk .other "" "" fun sel =>
  if sel = ".brand" then .ok [wElBrand]
  else if sel = ".name" then .ok [wElName]
  else .ok []

/-- A declarative config with brand and name selectors (witness data). -/
def wCfg : ExtractorConfig :=
  { siteId := "ulta", urlPatterns := ["ulta.com"], displayName := "Ulta Beauty",
    itemSelector := "[data-test=\"cart-item\"]", nameSelector := ".name",
    brandSelector := some ".brand" }

theorem configExtractItem_name_spec_witness :
    ({ name := "BrandX Gadget Pro" } : CartItem).name =
      jsTrim ("BrandX" ++ " " ++ "Gadget Pro")
    ∧ configExtractItem wCfg wElBrand = .ok none :=
  ⟨((configExtractItem_name_spec wCfg wElRow).2 rfl).1 "BrandX" "Gadget Pro"
      rfl rfl (by decide) { name := "BrandX Gadget Pro" } rfl,
   ((configExtractItem_name_spec wCfg wElBrand).2 rfl).2.2.2 rfl rfl⟩

/-! ## Claim C8 -/

theorem configLoop_skip_error (cfg : ExtractorConfig) (es₁ : List Element)
    (e : Element) (es₂ : List Element) (err : DomErr)
    (herr : configExtractItem cfg e = .error err) :
    configLoop cfg (es₁ ++ e :: es₂) = configLoop cfg (es₁ ++ es₂) := by
  induction es₁ with
  | nil => simp only [List.nil_append, configLoop, herr]
  | cons a as ih => simp only [List.cons_append, configLoop, List.append_eq, ih]

theorem safewayLoop_skip_error (es₁ : List Element) (e : Element)
    (es₂ : List Element) (err : DomErr)
    (herr : safewayExtractItem e = .error err) :
    safewayLoop (es₁ ++ e :: es₂) = safewayLoop (es₁ ++ es₂) := by
  induction es₁ with
  | nil => simp only [List.nil_append, safewayLoop, herr]
  | cons a as ih => simp only [List.cons_append, safewayLoop, List.append_eq, ih]

/-- C8: in the declarative strategy and in the bespoke Safeway strategy, an
exception thrown while building the record for one matched element is caught
at the item level: that element contributes no record and the remaining
matched elements are processed normally, so `extract()` still succeeds with
the records of all non-throwing elements. -/
theorem perItem_fault_isolation :
    (∀ (cfg : ExtractorConfig) (doc : Element) (es₁ : List Element)
        (e : Element) (es₂ : List Element) (err : DomErr),
      doc.queryAll cfg.itemSelector = .ok (es₁ ++ e :: es₂) →
      configExtractItem cfg e = .error err →
      configExtract cfg doc = .ok (deduplicateItems (configLoop cfg (es₁ ++ es₂))))
    ∧ (∀ (doc : Element) (es₁ : List Element) (e : Element)
        (es₂ : List Element) (err : DomErr),
      doc.queryAll "app-cart-item" = .ok (es₁ ++ e :: es₂) →
      safewayExtractItem e = .error err →
      safewayExtract doc = .ok (deduplicateItems (safewayLoop (es₁ ++ es₂)))) := by
  constructor
  · intro cfg doc es₁ e es₂ err hq herr
    unfold configExtract
    simp only [hq]
    rw [if_neg (by simp)]
    rw [configLoop_skip_error cfg es₁ e es₂ err herr]
  · intro doc es₁ e es₂ err hq herr
    unfold safewayExtract
    simp only [hq]
    rw [if_neg (by simp)]
    rw [safewayLoop_skip_error es₁ e es₂ err herr]

/-- A malformed DOM node: every property access on it throws (witness
data). -/
def wBadRow : Element := .mk .other "" "x" fun _ => .error ⟨"detached node"⟩

/-- A declarative-config document whose item query returns one malformed row
and one good row (witness data). -/
def wDocC : Element := .mk .other "" "" fun sel =>
  if sel = "[data-test=\"cart-item\"]" then .ok [wBadRow, wElRow] else .ok []

/-- The Safeway product-name node (witness data). -/
def wSafeName : Element := .mk .other "" " Organic Bananas " fun _ => .ok []

/-- A healthy Safeway cart row (witness data). -/
def wSafeRow : Element := .mk .other "" "" fun sel =>
  if sel = "a.product-name" then .ok [wSafeName] else .ok []

/-- A Safeway document with one good row then one malformed row (witness
data). -/
def wSafeDoc : Element := .mk .other "" "" fun sel =>
  if sel = "app-cart-item" then .ok [wSafeRow, wBadRow] else .ok []

theorem perItem_fault_isolation_witness :
    configExtract wCfg wDocC = .ok [{ name := "BrandX Gadget Pro" }]
    ∧ safewayExtract wSafeDoc =
        .ok [{ name := "Organic Bananas", quantity := some 1 }] :=
  ⟨(perItem_fault_isolation.1 wCfg wDocC [] wBadRow [wElRow]
      ⟨"detached node"⟩ rfl rfl).trans rfl,
   (perItem_fault_isolation.2 wSafeDoc [wSafeRow] wBadRow []
      ⟨"detached node"⟩ rfl rfl).trans rfl⟩

/-! ## Claim C7 -/

theorem genNameLoop_trimmed (el : Element) :
    ∀ (sels : List String) (s : String),
      genNameLoop el sels = .ok (some s) → jsTrim s = s := by
  intro sels
  induction sels with
  | nil => intro s h; simp [genNameLoop] at h
  | cons sel rest ih =>
    intro s h
    unfold genNameLoop at h
    split at h
    · exact absurd h (by simp)
    · exact ih s h
    · dsimp only at h
      split at h
      · split at h
        · simp only [Except.ok.injEq, Option.some.injEq] at h
          rw [← h]
          exact jsTrim_idem _
        · exact ih s h
      · exact ih s h

theorem genNameFallback_trimmed (el : Element) (s : String)
    (h : genNameFallback el = some s) : jsTrim s = s := by
  unfold genNameFallback at h
  split at h
  · split at h
    · exact absurd h (by simp)
    · split at h
      · simp only [Option.some.injEq] at h
        rw [← h]
        exact jsTrim_idem _
      · exact absurd h (by simp)
  · exact absurd h (by simp)

theorem genExtractItemName_trimmed (el : Element) (s : String)
    (h : genExtractItemName el = .ok (some s)) : jsTrim s = s := by
  unfold genExtractItemName at h
  split at h
  · exact absurd h (by simp)
  · rename_i name heq
    simp only [Except.ok.injEq, Option.some.injEq] at h
    rw [← h]
    exact genNameLoop_trimmed el nameSelectors name heq
  · simp only [Except.ok.injEq] at h
    exact genNameFallback_trimmed el s h

theorem genInnerLoop_items :
    ∀ (es : List Element) (l : List CartItem), genInnerLoop es = .ok l →
      ∀ i ∈ l, isValidItem i = true ∧ jsTrim i.name = i.name := by
  intro es
  induction es with
  | nil =>
    intro l h i hi
    simp only [genInnerLoop, Except.ok.injEq] at h
    subst h
    simp at hi
  | cons item rest ih =>
    intro l h i hi
    unfold genInnerLoop at h
    split at h
    · exact absurd h (by simp)
    · rename_i name? hname
      split at h
      · rename_i htruthy
        split at h
        · exact absurd h (by simp)
        · rename_i price? hprice
          split at h
          · exact absurd h (by simp)
          · rename_i qty? hqty
            split at h
            · exact absurd h (by simp)
            · rename_i tail htail
              dsimp only at h
              split at h
              · rename_i hvalid
                simp only [Except.ok.injEq] at h
                subst h
                rcases List.mem_cons.mp hi with rfl | hmem
                · refine ⟨hvalid, ?_⟩
                  cases name? with
                  | none => simp [truthyStr] at htruthy
                  | some s =>
                    show jsTrim ((some s).getD "") = (some s).getD ""
                    simp only [Option.getD_some]
                    exact genExtractItemName_trimmed item s hname
                · exact ih tail htail i hmem
              · simp only [Except.ok.injEq] at h
                subst h
                exact ih _ htail i hi
      · exact ih l h i hi

theorem genContainerLoop_items :
    ∀ (cs : List Element) (l : List CartItem), genContainerLoop cs = .ok l →
      ∀ i ∈ l, isValidItem i = true ∧ jsTrim i.name = i.name := by
  intro cs
  induction cs with
  | nil =>
    intro l h i hi
    simp only [genContainerLoop, Except.ok.injEq] at h
    subst h
    simp at hi
  | cons c rest ih =>
    intro l h i hi
    unfold genContainerLoop at h
    split at h
    · exact absurd h (by simp)
    · split at h
      · exact absurd h (by simp)
      · rename_i here hhere
        split at h
        · exact absurd h (by simp)
        · rename_i there hthere
          simp only [Except.ok.injEq] at h
          subst h
          rcases List.mem_append.mp hi with hmem | hmem
          · exact genInnerLoop_items _ _ hhere i hmem
          · exact ih _ hthere i hmem

theorem genSelectorLoop_items (doc : Element) :
    ∀ (sels : List String) (l : List CartItem), genSelectorLoop doc sels = .ok l →
      ∀ i ∈ l, isValidItem i = true ∧ jsTrim i.name = i.name := by
  intro sels
  induction sels with
  | nil =>
    intro l h i hi
    simp only [genSelectorLoop, Except.ok.injEq] at h
    subst h
    simp at hi
  | cons sel rest ih =>
    intro l h i hi
    unfold genSelectorLoop at h
    split at h
    · exact absurd h (by simp)
    · split at h
      · exact absurd h (by simp)
      · rename_i here hhere
        split at h
        · exact absurd h (by simp)
        · rename_i there hthere
          simp only [Except.ok.injEq] at h
          subst h
          rcases List.mem_append.mp hi with hmem | hmem
          · exact genContainerLoop_items _ _ hhere i hmem
          · exact ih _ hthere i hmem

theorem genPriceScanLoop_items :
    ∀ (es : List Element) (l : List CartItem), genPriceScanLoop es = .ok l →
      ∀ i ∈ l, isValidItem i = true ∧ jsTrim i.name = i.name := by
  intro es
  induction es with
  | nil =>
    intro l h i hi
    simp only [genPriceScanLoop, Except.ok.injEq] at h
    subst h
    simp at hi
  | cons element rest ih =>
    intro l h i hi
    unfold genPriceScanLoop at h
    split at h
    · split at h
      · exact absurd h (by simp)
      · rename_i name hname
        split at h
        · split at h
          · exact absurd h (by simp)
          · rename_i tail htail
            split at h
            · rename_i hvalid
              simp only [Except.ok.injEq] at h
              subst h
              rcases List.mem_cons.mp hi with rfl | hmem
              · exact ⟨hvalid, genExtractItemName_trimmed element name hname⟩
              · exact ih tail htail i hmem
            · simp only [Except.ok.injEq] at h
              subst h
              exact ih _ htail i hi
        · exact ih l h i hi
      · exact ih l h i hi
    · exact ih l h i hi

/-- C7: for every document, a successful run of the generic fallback
strategy's `extract()` returns at most 20 records, every returned record has
passed `isValidItem`, and the result is exactly a `deduplicateItems` pass
(capped at 20) over the validated candidates. -/
theorem genericExtract_spec (doc : Element) (r : List CartItem)
    (h : genericExtract doc = .ok r) :
    r.length ≤ 20
    ∧ (∀ i ∈ r, isValidItem i = true)
    ∧ ∃ raw, (∀ i ∈ raw, isValidItem i = true)
        ∧ r = (deduplicateItems raw).take 20 := by
  unfold genericExtract at h
  split at h
  · exact absurd h (by simp)
  · rename_i cartItems hcart
    split at h
    · exact absurd h (by simp)
    · rename_i items hitems
      simp only [Except.ok.injEq] at h
      subst h
      have hval : ∀ i ∈ items, isValidItem i = true ∧ jsTrim i.name = i.name := by
        split at hitems
        · simp only [Except.ok.injEq] at hitems
          subst hitems
          exact genSelectorLoop_items doc cartSelectors cartItems hcart
        · unfold genFindItemsByPricePattern at hitems
          split at hitems
          · exact absurd hitems (by simp)
          · exact genPriceScanLoop_items _ _ hitems
      refine ⟨?_, ?_, items, fun i hi => (hval i hi).1, rfl⟩
      · simp [List.length_take]
      · intro i hi
        have hmem : i ∈ deduplicateItems items :=
          (List.take_sublist 20 _).subset hi
        exact (hval i (mem_deduplicateItems hmem)).1

theorem genericExtract_spec_witness :
    ([] : List CartItem).length ≤ 20
    ∧ (∀ i ∈ ([] : List CartItem), isValidItem i = true)
    ∧ ∃ raw, (∀ i ∈ raw, isValidItem i = true)
        ∧ ([] : List CartItem) = (deduplicateItems raw).take 20 :=
  genericExtract_spec wDoc [] rfl

/-! ## Claim C4 -/

theorem validItem_trimmed_bounds {i : CartItem} (hv : isValidItem i = true)
    (ht : jsTrim i.name = i.name) :
    3 ≤ (jsTrim i.name).length ∧ (jsTrim i.name).length ≤ 500
      ∧ noiseMatch (jsTrim i.name) = false := by
  unfold isValidItem at hv
  simp only [Bool.and_eq_true, decide_eq_true_eq, Bool.not_eq_true'] at hv
  obtain ⟨⟨⟨-, h3⟩, h500⟩, hnoise⟩ := hv
  unfold isNoiseText at hnoise
  rw [ht]
  exact ⟨h3, h500, by rw [ht] at hnoise; exact hnoise⟩

theorem configResolveName_trimmed {cfg : ExtractorConfig} {el : Element}
    {nm : String} (hcustom : cfg.customNameExtractor = none)
    (h : configResolveName cfg el = .ok (some nm)) : jsTrim nm = nm := by
  unfold configResolveName at h
  split at h
  · rename_i f hf
    rw [hcustom] at hf
    exact absurd hf (by simp)
  · split at h
    · exact absurd h (by simp)
    · rename_i brandText hb
      split at h
      · exact absurd h (by simp)
      · rename_i nameText hn
        split at h
        · simp only [Except.ok.injEq, Option.some.injEq] at h
          rw [← h]
          exact jsTrim_idem _
        · simp only [Except.ok.injEq] at h
          unfold jsOrStr at h
          split at h
          · rw [h] at hn
            unfold configNameText at hn
            exact (extractText_ok_some hn).1
          · rw [h] at hb
            unfold configBrandText at hb
            split at hb
            · exact (extractText_ok_some hb).1
            · exact absurd hb (by simp)

theorem configLoop_items (cfg : ExtractorConfig)
    (hcustom : cfg.customNameExtractor = none) :
    ∀ (es : List Element), ∀ i ∈ configLoop cfg es,
      isValidItem i = true ∧ jsTrim i.name = i.name := by
  intro es
  induction es with
  | nil => intro i hi; simp [configLoop] at hi
  | cons e rest ih =>
    intro i hi
    unfold configLoop at hi
    split at hi
    · rename_i item hitem
      split at hi
      · rename_i hvalid
        rcases List.mem_cons.mp hi with rfl | hmem
        · refine ⟨hvalid, ?_⟩
          obtain ⟨nm, hnm, -, hname⟩ := configExtractItem_ok_name hitem
          rw [hname]
          exact configResolveName_trimmed hcustom hnm
        · exact ih i hmem
      · exact ih i hi
    · exact ih i hi
    · exact ih i hi

theorem safewayExtractItem_ok_name {el : Element} {item : CartItem}
    (h : safewayExtractItem el = .ok (some item)) :
    jsTrim item.name = item.name := by
  unfold safewayExtractItem at h
  split at h
  · exact absurd h (by simp)
  · exact absurd h (by simp)
  · rename_i productName hname
    split at h
    · exact absurd h (by simp)
    · rename_i price? hprice
      split at h
      · exact absurd h (by simp)
      · rename_i quantity hq
        simp only [Except.ok.injEq, Option.some.injEq] at h
        subst h
        exact (extractText_ok_some hname).1

theorem safewayLoop_items :
    ∀ (es : List Element), ∀ i ∈ safewayLoop es,
      isValidItem i = true ∧ jsTrim i.name = i.name := by
  intro es
  induction es with
  | nil => intro i hi; simp [safewayLoop] at hi
  | cons e rest ih =>
    intro i hi
    unfold safewayLoop at hi
    split at hi
    · rename_i item hitem
      split at hi
      · rename_i hvalid
        rcases List.mem_cons.mp hi with rfl | hmem
        · exact ⟨hvalid, safewayExtractItem_ok_name hitem⟩
        · exact ih i hmem
      · exact ih i hi
    · exact ih i hi
    · exact ih i hi

theorem sephoraBuildFullName_trimmed {brand productName : Option String}
    {fullName : String}
    (hb : ∀ s, brand = some s → jsTrim s = s)
    (hn : ∀ s, productName = some s → jsTrim s = s)
    (h : sephoraBuildFullName brand productName = some fullName) :
    jsTrim fullName = fullName := by
  unfold sephoraBuildFullName at h
  split at h
  · simp only [Option.some.injEq] at h
    rw [← h]
    exact jsTrim_idem _
  · unfold jsOrStr at h
    split at h
    · exact hn fullName h
    · exact hb fullName h

theorem sephoraExtractItem_ok_name {el : Element} {item : CartItem}
    (h : sephoraExtractItem el = .ok (some item)) :
    jsTrim item.name = item.name := by
  unfold sephoraExtractItem at h
  split at h
  · exact absurd h (by simp)
  · rename_i brand hbrand
    split at h
    · exact absurd h (by simp)
    · rename_i productName hpn
      split at h
      · exact absurd h (by simp)
      · rename_i fullName hfull
        split at h
        · exact absurd h (by simp)
        · split at h
          · exact absurd h (by simp)
          · rename_i price? hprice
            split at h
            · exact absurd h (by simp)
            · rename_i quantity hq
              simp only [Except.ok.injEq, Option.some.injEq] at h
              subst h
              refine sephoraBuildFullName_trimmed ?_ ?_ hfull
              · intro s hs
                rw [hs] at hbrand
                exact (extractText_ok_some hbrand).1
              · intro s hs
                rw [hs] at hpn
                exact (extractText_ok_some hpn).1

theorem sephoraLoop_items :
    ∀ (es : List Element), ∀ i ∈ sephoraLoop es,
      isValidItem i = true ∧ jsTrim i.name = i.name := by
  intro es
  induction es with
  | nil => intro i hi; simp [sephoraLoop] at hi
  | cons e rest ih =>
    intro i hi
    unfold sephoraLoop at hi
    split at hi
    · rename_i item hitem
      split at hi
      · rename_i hvalid
        rcases List.mem_cons.mp hi with rfl | hmem
        · exact ⟨hvalid, sephoraExtractItem_ok_name hitem⟩
        · exact ih i hmem
      · exact ih i hi
    · exact ih i hi
    · exact ih i hi

theorem bestBuyExtractItem_ok_name {el : Element} {item : CartItem}
    (h : bestBuyExtractItem el = .ok (some item)) :
    jsTrim item.name = item.name := by
  unfold bestBuyExtractItem at h
  split at h
  · exact absurd h (by simp)
  · rename_i name₁ h1
    split at h
    · exact absurd h (by simp)
    · rename_i name₂ h2
      split at h
      · exact absurd h (by simp)
      · rename_i productName? h3
        split at h
        · split at h
          · exact absurd h (by simp)
          · rename_i price₁ hp1
            split at h
            · exact absurd h (by simp)
            · rename_i price? hp2
              split at h
              · exact absurd h (by simp)
              · rename_i quantity hq
                simp only [Except.ok.injEq, Option.some.injEq] at h
                subst h
                exact jsTrim_idem _
        · exact absurd h (by simp)

theorem bestBuyLoop_items :
    ∀ (es : List Element), ∀ i ∈ bestBuyLoop es,
      isValidItem i = true ∧ jsTrim i.name = i.name := by
  intro es
  induction es with
  | nil => intro i hi; simp [bestBuyLoop] at hi
  | cons e rest ih =>
    intro i hi
    unfold bestBuyLoop at hi
    split at hi
    · rename_i item hitem
      split at hi
      · rename_i hvalid
        rcases List.mem_cons.mp hi with rfl | hmem
        · exact ⟨hvalid, bestBuyExtractItem_ok_name hitem⟩
        · exact ih i hmem
      · exact ih i hi
    · exact ih i hi
    · exact ih i hi

/-- C4: every record in the result of any of the program's strategies —
generic fallback, declarative (as registered, i.e. without a custom name
extractor), Safeway, Sephora, Best Buy — has a trimmed name of length
between 3 and 500 and its trimmed name matches none of the noise patterns
(UI-chrome words, pure numbers, punctuation-only strings). -/
theorem extract_validity_invariant :
    (∀ (doc : Element) (r : List CartItem), genericExtract doc = .ok r →
      ∀ i ∈ r, 3 ≤ (jsTrim i.name).length ∧ (jsTrim i.name).length ≤ 500
        ∧ noiseMatch (jsTrim i.name) = false)
    ∧ (∀ (cfg : ExtractorConfig) (doc : Element) (r : List CartItem),
        cfg.customNameExtractor = none → configExtract cfg doc = .ok r →
        ∀ i ∈ r, 3 ≤ (jsTrim i.name).length ∧ (jsTrim i.name).length ≤ 500
          ∧ noiseMatch (jsTrim i.name) = false)
    ∧ (∀ (doc : Element) (r : List CartItem), safewayExtract doc = .ok r →
        ∀ i ∈ r, 3 ≤ (jsTrim i.name).length ∧ (jsTrim i.name).length ≤ 500
          ∧ noiseMatch (jsTrim i.name) = false)
    ∧ (∀ (doc : Element) (r : List CartItem), sephoraExtract doc = .ok r →
        ∀ i ∈ r, 3 ≤ (jsTrim i.name).length ∧ (jsTrim i.name).length ≤ 500
          ∧ noiseMatch (jsTrim i.name) = false)
    ∧ (∀ (doc : Element) (r : List CartItem), bestBuyExtract doc = .ok r →
        ∀ i ∈ r, 3 ≤ (jsTrim i.name).length ∧ (jsTrim i.name).length ≤ 500
          ∧ noiseMatch (jsTrim i.name) = false) := by
  refine ⟨?_, ?_, ?_, ?_, ?_⟩
  · intro doc r h i hi
    unfold genericExtract at h
    split at h
    · exact absurd h (by simp)
    · rename_i cartItems hcart
      split at h
      · exact absurd h (by simp)
      · rename_i items hitems
        simp only [Except.ok.injEq] at h
        subst h
        have hmem : i ∈ items :=
          mem_deduplicateItems ((List.take_sublist 20 _).subset hi)
        have hval : isValidItem i = true ∧ jsTrim i.name = i.name := by
          split at hitems
          · simp only [Except.ok.injEq] at hitems
            subst hitems
            exact genSelectorLoop_items doc cartSelectors cartItems hcart i hmem
          · unfold genFindItemsByPricePattern at hitems
            split at hitems
            · exact absurd hitems (by simp)
            · exact genPriceScanLoop_items _ _ hitems i hmem
        exact validItem_trimmed_bounds hval.1 hval.2
  · intro cfg doc r hcustom h i hi
    unfold configExtract at h
    split at h
    · exact absurd h (by simp)
    · rename_i itemElements hq
      split at h
      · simp only [Except.ok.injEq] at h
        subst h
        simp at hi
      · simp only [Except.ok.injEq] at h
        subst h
        have := configLoop_items cfg hcustom itemElements i (mem_deduplicateItems hi)
        exact validItem_trimmed_bounds this.1 this.2
  · intro doc r h i hi
    unfold safewayExtract at h
    split at h
    · exact absurd h (by simp)
    · rename_i cartItems hq
      split at h
      · simp only [Except.ok.injEq] at h
        subst h
        simp at hi
      · simp only [Except.ok.injEq] at h
        subst h
        have := safewayLoop_items cartItems i (mem_deduplicateItems hi)
        exact validItem_trimmed_bounds this.1 this.2
  · intro doc r h i hi
    unfold sephoraExtract at h
    split at h
    · exact absurd h (by simp)
    · rename_i cartItems hq
      split at h
      · simp only [Except.ok.injEq] at h
        subst h
        simp at hi
      · simp only [Except.ok.injEq] at h
        subst h
        have := sephoraLoop_items cartItems i (mem_deduplicateItems hi)
        exact validItem_trimmed_bounds this.1 this.2
  · intro doc r h i hi
    unfold bestBuyExtract at h
    split at h
    · exact absurd h (by simp)
    · rename_i cartItems hq
      split at h
      · simp only [Except.ok.injEq] at h
        subst h
        simp at hi
      · simp only [Except.ok.injEq] at h
        subst h
        have := bestBuyLoop_items cartItems i (mem_deduplicateItems hi)
        exact validItem_trimmed_bounds this.1 this.2

theorem extract_validity_invariant_witness :
    3 ≤ (jsTrim ({ name := "Organic Bananas", quantity := some 1 } : CartItem).name).length
    ∧ (jsTrim ({ name := "Organic Bananas", quantity := some 1 } : CartItem).name).length ≤ 500
    ∧ noiseMatch (jsTrim ({ name := "Organic Bananas", quantity := some 1 } : CartItem).name) = false :=
  extract_validity_invariant.2.2.1 wSafeDoc
    [{ name := "Organic Bananas", quantity := some 1 }] rfl
    { name := "Organic Bananas", quantity := some 1 } (List.mem_singleton.mpr rfl)

/-! ## Claim C9 -/

/-- C9: the public entry point `window.__CC_extractCartItems` (that is,
`registry.extractItems` on the current hostname, wrapped in the
content-script `try`/`catch`) is a pure function of the registry state, the
hostname and the document: two successive invocations with the registry and
DOM unchanged return equal — in particular order-insensitively identical
(permutation-equal) — result sequences.  The side-effect-free embedding is
faithful here because extraction performs only DOM reads: no strategy
mutates the document, and the registry map is not written during
extraction. -/
theorem ccExtractCartItems_deterministic (r r' : Registry)
    (hostname hostname' : String) (doc doc' : Element)
    (hr : r = r') (hh : hostname = hostname') (hd : doc = doc') :
    ccExtractCartItems r hostname doc = ccExtractCartItems r' hostname' doc'
    ∧ (ccExtractCartItems r hostname doc).Perm
        (ccExtractCartItems r' hostname' doc') := by
  subst hr
  subst hh
  subst hd
  exact ⟨rfl, List.Perm.refl _⟩

theorem ccExtractCartItems_deterministic_witness :
    ccExtractCartItems wReg "unknown-store.test" wDoc =
      ccExtractCartItems wReg "unknown-store.test" wDoc
    ∧ (ccExtractCartItems wReg "unknown-store.test" wDoc).Perm
        (ccExtractCartItems wReg "unknown-store.test" wDoc) :=
  ccExtractCartItems_deterministic wReg wReg "unknown-store.test"
    "unknown-store.test" wDoc wDoc rfl rfl rfl

end AICheckout
